import Mathlib

/-!
Verification of the streaming look-ahead audio cache
(juce_BufferingAudioSource.cpp) against its natural-language design
specification.

The C++ class BufferingAudioSource is embedded shallowly:

* machine integers (int, int64) become Lean Int, with explicit
  two-complement truncation (toInt32) where the code casts an int64
  expression to int, and with Int.tmod where the code uses the C %
  operator (C division truncates toward zero);
* the multichannel sample storage and the external Source are modelled
  as functions Int -> Int -> Int (channel -> index -> sample value);
* the mutable object state (buffer capacity, valid-range metadata,
  playback cursor, loop flag, preparation flag, sample rate) becomes an
  explicit State record threaded through the operations;
* locking, the TimeSliceThread scheduler and the readiness event are
  concurrency devices; each operation is modelled as the sequential
  state transformation it performs.  The in-lock metadata phase of
  readNextBufferChunk is exposed separately (readNextBufferChunkLocked)
  because that intermediate committed state is visible to the reader
  thread while the background read is in flight.
-/

/-- juce jmax: (a < b) ? b : a. -/
def jmax (a b : Int) : Int := if a < b then b else a

/-- juce jmin: (b < a) ? b : a. -/
def jmin (a b : Int) : Int := if b < a then b else a

/-- juce jlimit (lower, upper, value): clamp value into [lower, upper]. -/
def jlimit (lower upper value : Int) : Int :=
  if value < lower then lower else if upper < value then upper else value

/-- Two-complement truncation of an int64 value to int (32 bit), modelling
the (int) casts in the C++ code. -/
def toInt32 (x : Int) : Int := (x + 2147483648) % 4294967296 - 2147483648

/-- The mutable state of a BufferingAudioSource object.
capacity is buffer.getNumSamples(); bufferValidStart and bufferValidEnd
are the absolute valid-range bounds; nextPlayPos is the playback cursor;
wasSourceLooping caches the looping flag observed at the previous refill;
isPrepared and sampleRate belong to the configuration logic of
prepareToPlay.  The sample rate is held as an Int: no claim depends on
its numeric type, only on equality comparison. -/
structure State where
  capacity : Int
  bufferValidStart : Int
  bufferValidEnd : Int
  nextPlayPos : Int
  wasSourceLooping : Bool
  isPrepared : Bool
  sampleRate : Int

/-- The freshly constructed object: no storage allocated yet
(buffer.getNumSamples() = 0), empty valid range, cursor at 0,
not prepared. -/
def initialState : State :=
  { capacity := 0, bufferValidStart := 0, bufferValidEnd := 0,
    nextPlayPos := 0, wasSourceLooping := false, isPrepared := false,
    sampleRate := 0 }

/-- BufferingAudioSource::getValidBufferRange (source lines 221-229):
the block-relative intersection of [nextPlayPos, nextPlayPos+numSamples)
with the valid range, via jlimit, cast to int. -/
def getValidBufferRange (s : State) (numSamples : Int) : Int × Int :=
  (toInt32 (jlimit s.bufferValidStart s.bufferValidEnd s.nextPlayPos
              - s.nextPlayPos),
   toInt32 (jlimit s.bufferValidStart s.bufferValidEnd
              (s.nextPlayPos + numSamples) - s.nextPlayPos))

/-- The wraparound mapping shared by the refill write path
(readNextBufferChunk, lines 280-300) and the read copy path
(getNextAudioBlock, lines 130-152): map the absolute range
[start, start+length) onto (physicalOffset, length) segments of the
circular buffer.  One contiguous copy when the start index is below the
end index, otherwise a split at the physical end of the buffer. -/
def wrapSegments (capacity start length : Int) : List (Int × Int) :=
  let bufferIndexStart := start.tmod capacity
  let bufferIndexEnd := (start + length).tmod capacity
  if bufferIndexStart < bufferIndexEnd then
    [(bufferIndexStart, length)]
  else
    [(bufferIndexStart, capacity - bufferIndexStart),
     (0, length - (capacity - bufferIndexStart))]

/-- AudioBuffer::clear (startSample, numSamples): zero the given index
range on every channel of a buffer with numChannels channels. -/
def clearRegion (dest : Int → Int → Int) (numChannels start length : Int) :
    Int → Int → Int :=
  fun c i =>
    if 0 ≤ c ∧ c < numChannels ∧ start ≤ i ∧ i < start + length then 0
    else dest c i

/-- The copy loop of getNextAudioBlock: for every channel below
numChannels, copy the listed (physicalOffset, length) segments of the
circular buffer into the destination, starting at destStart and
advancing by each segment length.  The C++ loop runs channel by
channel; since each iteration writes only its own channel from the same
source, the combined function is channel-parallel. -/
def copySegments (dest : Int → Int → Int) (numChannels : Int)
    (buf : Int → Int → Int) (destStart : Int) :
    List (Int × Int) → Int → Int → Int
  | [] => dest
  | (off, len) :: rest =>
      copySegments
        (fun c i =>
          if 0 ≤ c ∧ c < numChannels ∧ destStart ≤ i ∧ i < destStart + len
          then buf c (off + (i - destStart))
          else dest c i)
        numChannels buf (destStart + len) rest

/-- BufferingAudioSource::getNextAudioBlock (source lines 101-158), the
Read Path.  Arguments: the channel count of the cache
(numberOfChannels), the object state, the cache storage buf, the
destination buffer (channel count, contents, startSample) and the
requested numSamples.  Returns the new destination contents and the new
state.  On an empty intersection the destination region is cleared and
the function returns without advancing the cursor; otherwise the head
and tail misses are cleared, the intersection is copied through the
wraparound mapping, and the cursor advances by numSamples. -/
def getNextAudioBlock (numberOfChannels : Int) (s : State)
    (buf : Int → Int → Int) (destNumChannels : Int)
    (dest : Int → Int → Int) (startSample numSamples : Int) :
    (Int → Int → Int) × State :=
  let bufferRange := getValidBufferRange s numSamples
  if bufferRange.1 = bufferRange.2 then
    (clearRegion dest destNumChannels startSample numSamples, s)
  else
    let validStart := bufferRange.1
    let validEnd := bufferRange.2
    let d1 := if 0 < validStart then
        clearRegion dest destNumChannels startSample validStart
      else dest
    let d2 := if validEnd < numSamples then
        clearRegion d1 destNumChannels (startSample + validEnd)
          (numSamples - validEnd)
      else d1
    let d3 := if validStart < validEnd then
        copySegments d2 (jmin numberOfChannels destNumChannels) buf
          (startSample + validStart)
          (wrapSegments s.capacity (validStart + s.nextPlayPos)
            (validEnd - validStart))
      else d2
    (d3, { s with nextPlayPos := s.nextPlayPos + numSamples })

/-- BufferingAudioSource::setNextReadPosition (source lines 213-219):
reassign the cursor (seek). -/
def setNextReadPosition (s : State) (newPosition : Int) : State :=
  { s with nextPlayPos := newPosition }

/-- BufferingAudioSource::prepareToPlay (source lines 50-85) restricted
to the state it writes: required capacity is
jmax (samplesPerBlockExpected * 2) numberOfSamplesToBuffer; when the
sample rate, the capacity or the preparation flag changed, the storage
is resized and cleared and the valid range is reset to empty.  The
scheduler registration and the prefill wait loop only sleep and poll;
they write no state of this object. -/
def prepareToPlay (numberOfSamplesToBuffer : Int) (s : State)
    (samplesPerBlockExpected newSampleRate : Int) : State :=
  let bufferSizeNeeded := jmax (samplesPerBlockExpected * 2)
    numberOfSamplesToBuffer
  if newSampleRate ≠ s.sampleRate ∨ bufferSizeNeeded ≠ s.capacity
      ∨ s.isPrepared = false then
    { s with isPrepared := true, sampleRate := newSampleRate,
             capacity := bufferSizeNeeded,
             bufferValidStart := 0, bufferValidEnd := 0 }
  else s

/-- The result of the in-lock metadata phase of readNextBufferChunk
(source lines 235-273): the state as committed inside the range lock,
the selected section to read from the Source, and the values newBVS and
newBVE that the final commit (lines 302-307) will install. -/
structure RefillPlan where
  locked : State
  sectionToReadStart : Int
  sectionToReadEnd : Int
  newBVS : Int
  newBVE : Int

/-- In-lock phase of BufferingAudioSource::readNextBufferChunk (source
lines 235-273).  A loop-flag change first discards the whole valid
range; then the cold/seek, drift and steady-state branches select the
section to read and update the metadata.  maxChunkSize = 2048, guard
margin = 4, drift threshold = 512, matching the source constants.  The
drift comparisons pass through toInt32 because the C++ code casts the
int64 differences to int before std::abs. -/
def readNextBufferChunkLocked (isLooping : Bool) (s : State) : RefillPlan :=
  let s0 := if s.wasSourceLooping ≠ isLooping then
      { s with wasSourceLooping := isLooping,
               bufferValidStart := 0, bufferValidEnd := 0 }
    else s
  let newBVS := jmax 0 s0.nextPlayPos
  let newBVE := newBVS + s0.capacity - 4
  let maxChunkSize : Int := 2048
  if newBVS < s0.bufferValidStart ∨ s0.bufferValidEnd ≤ newBVS then
    let newBVE2 := jmin newBVE (newBVS + maxChunkSize)
    { locked := { s0 with bufferValidStart := 0, bufferValidEnd := 0 },
      sectionToReadStart := newBVS, sectionToReadEnd := newBVE2,
      newBVS := newBVS, newBVE := newBVE2 }
  else if 512 < |toInt32 (newBVS - s0.bufferValidStart)|
      ∨ 512 < |toInt32 (newBVE - s0.bufferValidEnd)| then
    let newBVE2 := jmin newBVE (s0.bufferValidEnd + maxChunkSize)
    { locked := { s0 with bufferValidStart := newBVS,
                          bufferValidEnd := jmin s0.bufferValidEnd newBVE2 },
      sectionToReadStart := s0.bufferValidEnd, sectionToReadEnd := newBVE2,
      newBVS := newBVS, newBVE := newBVE2 }
  else
    { locked := s0, sectionToReadStart := 0, sectionToReadEnd := 0,
      newBVS := newBVS, newBVE := newBVE }

/-- BufferingAudioSource::readNextBufferChunk (source lines 231-311)
restricted to its state effect: run the in-lock phase; when the
selected section is empty return false (no work), otherwise perform the
read and commit newBVS and newBVE under the lock, returning true. -/
def readNextBufferChunkState (isLooping : Bool) (s : State) :
    State × Bool :=
  let p := readNextBufferChunkLocked isLooping s
  if p.sectionToReadStart = p.sectionToReadEnd then (p.locked, false)
  else
    ({ p.locked with bufferValidStart := p.newBVS,
                     bufferValidEnd := p.newBVE }, true)

/-- BufferingAudioSource::readBufferSection (source lines 313-322): read
length samples of the Source starting at absolute position start into
the circular buffer at physical offset bufferOffset.  The Source is
modelled as the position-indexed sample function srcData; the seek
performed when the Source position differs from start is what makes
that model apply. -/
def readBufferSection (buf srcData : Int → Int → Int)
    (start length bufferOffset : Int) : Int → Int → Int :=
  fun c i =>
    if bufferOffset ≤ i ∧ i < bufferOffset + length then
      srcData c (start + (i - bufferOffset))
    else buf c i

/-- The sequence of readBufferSection calls issued by
readNextBufferChunk for the listed wraparound segments, with the
absolute source position advancing by each segment length. -/
def readSections (buf srcData : Int → Int → Int) (start : Int) :
    List (Int × Int) → Int → Int → Int
  | [] => buf
  | (off, len) :: rest =>
      readSections (readBufferSection buf srcData start len off) srcData
        (start + len) rest

/-- BufferingAudioSource::readNextBufferChunk (source lines 231-311)
including the buffer write: the selected section is read from the
Source through the wraparound mapping, then the new valid range is
committed. -/
def readNextBufferChunk (isLooping : Bool) (s : State)
    (buf srcData : Int → Int → Int) :
    State × (Int → Int → Int) × Bool :=
  let p := readNextBufferChunkLocked isLooping s
  if p.sectionToReadStart = p.sectionToReadEnd then (p.locked, buf, false)
  else
    (({ p.locked with bufferValidStart := p.newBVS,
                      bufferValidEnd := p.newBVE }),
     readSections buf srcData p.sectionToReadStart
       (wrapSegments s.capacity p.sectionToReadStart
         (p.sectionToReadEnd - p.sectionToReadStart)),
     true)

/-- The elapsed-time expression of
BufferingAudioSource::waitForNextAudioBlockReady (source lines 172-173
and 196-197), on uint32 millisecond counter readings:
now >= startTime ? now - startTime : (uint32 max - startTime) + now. -/
def elapsedMillis (startTime now : Nat) : Nat :=
  if startTime ≤ now then now - startTime
  else (4294967295 - startTime) + now

/-- The states of a BufferingAudioSource constructed with the given
bufferSizeSamples (the constructor sets numberOfSamplesToBuffer to
jmax 1024 bufferSizeSamples) that are reachable through the public
operations.  The refill steps require the prepared flag because
useTimeSlice only runs while the object is registered with the
background thread, which happens inside prepareToPlay; the committed
in-lock intermediate state of a refill is reachable on its own because
the range lock is released during the Source read. -/
inductive Reachable (bufferSizeSamples : Int) : State → Prop where
  | init : Reachable bufferSizeSamples initialState
  | prepare : ∀ s samplesPerBlockExpected newSampleRate,
      Reachable bufferSizeSamples s →
      Reachable bufferSizeSamples
        (prepareToPlay (jmax 1024 bufferSizeSamples) s
          samplesPerBlockExpected newSampleRate)
  | seek : ∀ s p, Reachable bufferSizeSamples s →
      Reachable bufferSizeSamples (setNextReadPosition s p)
  | readBlock : ∀ s numberOfChannels buf destNumChannels dest startSample
        numSamples, Reachable bufferSizeSamples s →
      Reachable bufferSizeSamples
        (getNextAudioBlock numberOfChannels s buf destNumChannels dest
          startSample numSamples).2
  | refillLocked : ∀ s isLooping, Reachable bufferSizeSamples s →
      s.isPrepared = true →
      Reachable bufferSizeSamples (readNextBufferChunkLocked isLooping s).locked
  | refill : ∀ s isLooping, Reachable bufferSizeSamples s →
      s.isPrepared = true →
      Reachable bufferSizeSamples (readNextBufferChunkState isLooping s).1

/-! ## Helper lemmas -/

lemma toInt32_eq_self {x : Int} (h1 : -2147483648 ≤ x)
    (h2 : x < 2147483648) : toInt32 x = x := by
  unfold toInt32
  have h3 : (x + 2147483648) % 4294967296 = x + 2147483648 :=
    Int.emod_eq_of_lt (by omega) (by omega)
  omega

lemma getNextAudioBlock_snd (numberOfChannels : Int) (s : State)
    (buf : Int → Int → Int) (destNumChannels : Int)
    (dest : Int → Int → Int) (startSample numSamples : Int) :
    (getNextAudioBlock numberOfChannels s buf destNumChannels dest
        startSample numSamples).2
      = if (getValidBufferRange s numSamples).1
            = (getValidBufferRange s numSamples).2 then s
        else { s with nextPlayPos := s.nextPlayPos + numSamples } := by
  by_cases h : (getValidBufferRange s numSamples).1
      = (getValidBufferRange s numSamples).2
  · simp [getNextAudioBlock, h]
  · simp [getNextAudioBlock, h]

lemma range_eq_of_empty (s : State) (n : Int)
    (hr : s.bufferValidStart ≤ s.bufferValidEnd) (hn : 0 ≤ n)
    (hempty : ∀ p : Int, ¬ (s.nextPlayPos ≤ p ∧ p < s.nextPlayPos + n
      ∧ s.bufferValidStart ≤ p ∧ p < s.bufferValidEnd)) :
    (getValidBufferRange s n).1 = (getValidBufferRange s n).2 := by
  have h1 := hempty s.nextPlayPos
  have h2 := hempty s.bufferValidStart
  have key : jlimit s.bufferValidStart s.bufferValidEnd s.nextPlayPos
      = jlimit s.bufferValidStart s.bufferValidEnd (s.nextPlayPos + n) := by
    unfold jlimit; split_ifs <;> omega
  unfold getValidBufferRange
  rw [key]

lemma range_lt_of_inter (s : State) (n : Int)
    (hr : s.bufferValidStart ≤ s.bufferValidEnd) (hn : 0 ≤ n)
    (hn32 : n < 2147483648) (p : Int) (hp1 : s.nextPlayPos ≤ p)
    (hp2 : p < s.nextPlayPos + n) (hp3 : s.bufferValidStart ≤ p)
    (hp4 : p < s.bufferValidEnd) :
    (getValidBufferRange s n).1 < (getValidBufferRange s n).2 := by
  have hAB : 0 ≤ jlimit s.bufferValidStart s.bufferValidEnd s.nextPlayPos
        - s.nextPlayPos
      ∧ jlimit s.bufferValidStart s.bufferValidEnd s.nextPlayPos
        < jlimit s.bufferValidStart s.bufferValidEnd (s.nextPlayPos + n)
      ∧ jlimit s.bufferValidStart s.bufferValidEnd (s.nextPlayPos + n)
        - s.nextPlayPos ≤ n := by
    unfold jlimit; split_ifs <;> omega
  unfold getValidBufferRange
  rw [toInt32_eq_self (by omega) (by omega),
    toInt32_eq_self (by omega) (by omega)]
  omega

lemma wrapSegments_eq (C s len : Int) (hC : 0 < C) (hs : 0 ≤ s)
    (h1 : 1 ≤ len) (h2 : len ≤ C) :
    (s.tmod C + len < C ∧ wrapSegments C s len = [(s.tmod C, len)])
    ∨ (C ≤ s.tmod C + len
       ∧ wrapSegments C s len
         = [(s.tmod C, C - s.tmod C), (0, s.tmod C + len - C)]) := by
  have e1 : s.tmod C = s % C := Int.tmod_eq_emod hs hC.le
  have e2 : (s + len).tmod C = (s + len) % C :=
    Int.tmod_eq_emod (by omega) hC.le
  have b1 : 0 ≤ s % C := Int.emod_nonneg s (by omega)
  have b1b : s % C < C := Int.emod_lt_of_pos s hC
  have h3 : (s + len) % C = (s % C + len) % C :=
    (Int.emod_add_emod s C len).symm
  by_cases hlt : s % C + len < C
  · left
    have hbie : (s + len) % C = s % C + len := by
      rw [h3, Int.emod_eq_of_lt (by omega) hlt]
    refine ⟨by omega, ?_⟩
    simp only [wrapSegments]
    rw [e1, e2, hbie, if_pos (by omega)]
  · right
    have hbie : (s + len) % C = s % C + len - C := by
      have h4 : (s % C + len - C) % C = (s % C + len) % C := by
        conv_lhs => rw [show s % C + len - C
          = s % C + len + C * (-1) by ring]
        rw [Int.add_mul_emod_self_left]
      rw [h3, ← h4, Int.emod_eq_of_lt (by omega) (by omega)]
    refine ⟨by omega, ?_⟩
    simp only [wrapSegments]
    rw [e1, e2, hbie, if_neg (by omega)]
    have h5 : len - (C - s % C) = s % C + len - C := by ring
    rw [h5]

/-! ## Claim C2 -/

/-- C2 counterexample: with capacity 4 the absolute range [2, 4) ends
exactly at the physical end of the buffer without crossing it
(bufferIndexStart + length = 4 is not greater than the capacity), yet
the mapping produces two segments, [(2, 2), (0, 0)], refuting the
claimed one-segment case. -/
theorem wrapSegments_boundary_counterexample :
    (2 : Int).tmod 4 + 2 ≤ 4 ∧ (wrapSegments 4 2 2).length = 2 := by
  decide

/-- C2 (amended): for capacity C > 0 and an absolute range [s, s+len)
with 0 ≤ s and 1 ≤ len ≤ C, the wraparound mapping produces one segment
when the range stays strictly inside the physical buffer
(s mod C + len < C) and two segments when it reaches or crosses the
physical end (the second segment being empty exactly at the boundary
case); the segment lengths are nonnegative and sum to len, the segments
are pairwise disjoint, and no segment extends past capacity. -/
theorem wrapSegments_split_amended (C s len : Int) (hC : 0 < C)
    (hs : 0 ≤ s) (h1 : 1 ≤ len) (h2 : len ≤ C) :
    ((wrapSegments C s len).length
      = if s.tmod C + len < C then 1 else 2)
    ∧ ((wrapSegments C s len).map Prod.snd).sum = len
    ∧ (∀ q ∈ wrapSegments C s len, 0 ≤ q.1 ∧ 0 ≤ q.2 ∧ q.1 + q.2 ≤ C)
    ∧ (wrapSegments C s len).Pairwise
        (fun a b => a.1 + a.2 ≤ b.1 ∨ b.1 + b.2 ≤ a.1) := by
  have hb1 : 0 ≤ s.tmod C := by
    rw [Int.tmod_eq_emod hs hC.le]; exact Int.emod_nonneg s (by omega)
  have hb2 : s.tmod C < C := by
    rw [Int.tmod_eq_emod hs hC.le]; exact Int.emod_lt_of_pos s hC
  rcases wrapSegments_eq C s len hC hs h1 h2 with ⟨hc, he⟩ | ⟨hc, he⟩
  · rw [he, if_pos hc]
    refine ⟨rfl, by simp, ?_, by simp⟩
    intro q hq
    simp only [List.mem_singleton] at hq
    subst hq
    constructor
    · exact hb1
    · constructor
      · omega
      · omega
  · rw [he, if_neg (by omega)]
    refine ⟨rfl, by simp, ?_, ?_⟩
    · intro q hq
      simp only [List.mem_cons, List.mem_singleton] at hq
      rcases hq with hq | hq | hq
      · subst hq; refine ⟨hb1, by omega, by omega⟩
      · subst hq; refine ⟨le_refl 0, by omega, by omega⟩
      · cases hq
    · simp only [List.pairwise_cons, List.mem_singleton]
      refine ⟨?_, ?_, List.Pairwise.nil⟩
      · rintro q rfl
        right
        show (0 : Int) + (s.tmod C + len - C) ≤ s.tmod C
        omega
      · intro q hq
        exact absurd hq (List.not_mem_nil q)

/-- C2 witness: the amended statement applied at capacity 4 and the
range [1, 3). -/
theorem wrapSegments_split_amended_witness :
    ((wrapSegments 4 1 2).length
      = if (1 : Int).tmod 4 + 2 < 4 then 1 else 2)
    ∧ ((wrapSegments 4 1 2).map Prod.snd).sum = 2
    ∧ (∀ q ∈ wrapSegments 4 1 2, 0 ≤ q.1 ∧ 0 ≤ q.2 ∧ q.1 + q.2 ≤ 4)
    ∧ (wrapSegments 4 1 2).Pairwise
        (fun a b => a.1 + a.2 ≤ b.1 ∨ b.1 + b.2 ≤ a.1) :=
  wrapSegments_split_amended 4 1 2 (by decide) (by decide) (by decide)
    (by decide)

/-! ## Claim C1 -/

/-- C1 counterexample: with an empty valid range (total cache miss,
as after construction and before any refill) a readBlock(512) call
leaves the playback cursor at 0 instead of advancing it to 512: the
total-miss branch of getNextAudioBlock returns before the cursor
update. -/
theorem readBlock_total_miss_keeps_cursor_counterexample :
    (getNextAudioBlock 2 ⟨4096, 0, 0, 0, false, true, 44100⟩
        (fun _ _ => 0) 2 (fun _ _ => 0) 0 512).2.nextPlayPos = 0
    ∧ (getNextAudioBlock 2 ⟨4096, 0, 0, 0, false, true, 44100⟩
        (fun _ _ => 0) 2 (fun _ _ => 0) 0 512).2.nextPlayPos
      ≠ 0 + 512 := by
  constructor
  · rfl
  · decide

/-- C1 (amended): the cursor advances by n exactly when the requested
range [cursor, cursor+n) meets the valid range; on a total cache miss
(empty intersection) the call clears the block and leaves the cursor
unchanged.  Stated for a well-formed valid range, a nonnegative request
and a request that fits in an int. -/
theorem readBlock_cursor_advance_amended (numberOfChannels : Int)
    (s : State) (buf dest : Int → Int → Int)
    (destNumChannels startSample n : Int)
    (hr : s.bufferValidStart ≤ s.bufferValidEnd) (hn : 0 ≤ n)
    (hn32 : n < 2147483648) :
    ((∀ p : Int, ¬ (s.nextPlayPos ≤ p ∧ p < s.nextPlayPos + n
        ∧ s.bufferValidStart ≤ p ∧ p < s.bufferValidEnd)) →
      (getNextAudioBlock numberOfChannels s buf destNumChannels dest
          startSample n).2.nextPlayPos = s.nextPlayPos)
    ∧ ((∃ p : Int, s.nextPlayPos ≤ p ∧ p < s.nextPlayPos + n
        ∧ s.bufferValidStart ≤ p ∧ p < s.bufferValidEnd) →
      (getNextAudioBlock numberOfChannels s buf destNumChannels dest
          startSample n).2.nextPlayPos = s.nextPlayPos + n) := by
  constructor
  · intro hempty
    rw [getNextAudioBlock_snd,
      if_pos (range_eq_of_empty s n hr hn hempty)]
  · rintro ⟨p, hp1, hp2, hp3, hp4⟩
    have hlt := range_lt_of_inter s n hr hn hn32 p hp1 hp2 hp3 hp4
    rw [getNextAudioBlock_snd, if_neg (by omega)]

/-- C1 witness: a state whose valid range [0, 1000) covers the cursor,
with a 512-sample request; the cursor advances from 0 to 512. -/
theorem readBlock_cursor_advance_amended_witness :
    (getNextAudioBlock 2 ⟨4096, 0, 1000, 0, false, true, 44100⟩
        (fun _ _ => 0) 2 (fun _ _ => 0) 0 512).2.nextPlayPos
      = (0 : Int) + 512 :=
  (readBlock_cursor_advance_amended 2
      ⟨4096, 0, 1000, 0, false, true, 44100⟩ (fun _ _ => 0)
      (fun _ _ => 0) 2 0 512 (by decide) (by decide) (by decide)).2
    ⟨0, by decide, by decide, by decide, by decide⟩

/-! ## Claim C10 -/

/-- C10: for every state with a well-formed valid range, every cursor
position and every request size n with 0 ≤ n below the int limit, the
block-relative range returned by getValidBufferRange is either empty or
satisfies 0 ≤ start < end ≤ n, so the clears and copies of the Read
Path stay inside the n-sample destination block. -/
theorem getValidBufferRange_block_bounds (s : State) (n : Int)
    (hr : s.bufferValidStart ≤ s.bufferValidEnd) (hn : 0 ≤ n)
    (hn32 : n < 2147483648) :
    (getValidBufferRange s n).1 = (getValidBufferRange s n).2
    ∨ (0 ≤ (getValidBufferRange s n).1
       ∧ (getValidBufferRange s n).1 < (getValidBufferRange s n).2
       ∧ (getValidBufferRange s n).2 ≤ n) := by
  have key : jlimit s.bufferValidStart s.bufferValidEnd s.nextPlayPos
        = jlimit s.bufferValidStart s.bufferValidEnd (s.nextPlayPos + n)
      ∨ (0 ≤ jlimit s.bufferValidStart s.bufferValidEnd s.nextPlayPos
          - s.nextPlayPos
         ∧ jlimit s.bufferValidStart s.bufferValidEnd s.nextPlayPos
          < jlimit s.bufferValidStart s.bufferValidEnd
              (s.nextPlayPos + n)
         ∧ jlimit s.bufferValidStart s.bufferValidEnd
              (s.nextPlayPos + n) - s.nextPlayPos ≤ n) := by
    unfold jlimit; split_ifs <;> omega
  rcases key with key | ⟨k1, k2, k3⟩
  · left
    unfold getValidBufferRange
    rw [key]
  · right
    unfold getValidBufferRange
    rw [toInt32_eq_self (by omega) (by omega),
      toInt32_eq_self (by omega) (by omega)]
    omega

/-- C10 witness: valid range [0, 1000), cursor 0, request 512: the
range is nonempty with 0 ≤ 0 < 512 ≤ 512. -/
theorem getValidBufferRange_block_bounds_witness :
    (getValidBufferRange ⟨4096, 0, 1000, 0, false, true, 44100⟩ 512).1
      = (getValidBufferRange ⟨4096, 0, 1000, 0, false, true, 44100⟩
          512).2
    ∨ (0 ≤ (getValidBufferRange ⟨4096, 0, 1000, 0, false, true, 44100⟩
          512).1
       ∧ (getValidBufferRange ⟨4096, 0, 1000, 0, false, true, 44100⟩
          512).1
        < (getValidBufferRange ⟨4096, 0, 1000, 0, false, true, 44100⟩
          512).2
       ∧ (getValidBufferRange ⟨4096, 0, 1000, 0, false, true, 44100⟩
          512).2 ≤ 512) :=
  getValidBufferRange_block_bounds ⟨4096, 0, 1000, 0, false, true, 44100⟩
    512 (by decide) (by decide) (by decide)

/-! ## Claim C9 -/

/-- C9 counterexample: a BufferingAudioSource constructed with
bufferSizeSamples = 1024 (so numberOfSamplesToBuffer = 1024) and
prepared with samplesPerBlockExpected = 1000 has minimum buffer size
1024 < 2000 = twice the block size, yet prepareToPlay proceeds: the
object becomes prepared with capacity silently enlarged to 2000.  No
rejection happens at configure time. -/
theorem prepareToPlay_small_min_counterexample :
    (prepareToPlay (jmax 1024 1024) initialState 1000 44100).isPrepared
      = true
    ∧ (prepareToPlay (jmax 1024 1024) initialState 1000 44100).capacity
      = 2000 := by
  constructor
  · rfl
  · rfl

/-- C9 (amended): prepareToPlay never rejects a configuration.  It
always proceeds, leaving the object prepared with capacity
jmax (samplesPerBlockExpected * 2) numberOfSamplesToBuffer: a minimum
buffer size smaller than twice the requested block size is silently
overridden upward, not rejected (only a debug-build assertion in the
constructor checks the constructor argument). -/
theorem prepareToPlay_capacity_amended (numberOfSamplesToBuffer : Int)
    (s : State) (samplesPerBlockExpected newSampleRate : Int) :
    (prepareToPlay numberOfSamplesToBuffer s samplesPerBlockExpected
        newSampleRate).isPrepared = true
    ∧ (prepareToPlay numberOfSamplesToBuffer s samplesPerBlockExpected
        newSampleRate).capacity
      = jmax (samplesPerBlockExpected * 2) numberOfSamplesToBuffer := by
  simp only [prepareToPlay]
  split_ifs with h
  · exact ⟨rfl, rfl⟩
  · push_neg at h
    refine ⟨?_, h.2.1.symm⟩
    have h3 := h.2.2
    cases hb : s.isPrepared
    · exact absurd hb h3
    · rfl

/-! ## Claim C8 -/

/-- C8: the elapsed-time expression of waitForNextAudioBlockReady is
off by one millisecond across counter rollover.  At the failing input
startTime = 4294967295, now = 0 (the counter has just wrapped, one
millisecond has elapsed) the code computes 0, while the true elapsed
time modulo 2^32 is 1: the rollover branch uses
(uint32 max - startTime) + now where wraparound-safe arithmetic needs
(uint32 max - startTime) + now + 1. -/
theorem elapsedMillis_rollover_off_by_one :
    elapsedMillis 4294967295 0 = 0
    ∧ (2 ^ 32 + 0 - 4294967295) % 2 ^ 32 = 1 := by
  decide

/-! ## Claim C5 -/

/-- C5: when [cursor, cursor+n) does not meet the valid range (total
cache miss), every sample of the destination region, on every channel
of the destination buffer, is set to zero; the call returns normally
(the embedded function is total and the C++ function returns void, so
no error is signalled). -/
theorem readBlock_total_miss_zeros (numberOfChannels : Int) (s : State)
    (buf dest : Int → Int → Int) (destNumChannels startSample n : Int)
    (hr : s.bufferValidStart ≤ s.bufferValidEnd) (hn : 0 ≤ n)
    (hempty : ∀ p : Int, ¬ (s.nextPlayPos ≤ p ∧ p < s.nextPlayPos + n
      ∧ s.bufferValidStart ≤ p ∧ p < s.bufferValidEnd)) :
    ∀ c i, 0 ≤ c → c < destNumChannels → startSample ≤ i →
      i < startSample + n →
      (getNextAudioBlock numberOfChannels s buf destNumChannels dest
          startSample n).1 c i = 0 := by
  intro c i hc1 hc2 hi1 hi2
  have hem := range_eq_of_empty s n hr hn hempty
  have hfst : (getNextAudioBlock numberOfChannels s buf destNumChannels
      dest startSample n).1
      = clearRegion dest destNumChannels startSample n := by
    simp [getNextAudioBlock, hem]
  rw [hfst]
  unfold clearRegion
  rw [if_pos ⟨hc1, hc2, hi1, hi2⟩]

/-- C5 witness: empty valid range, cursor 0, request 4; the destination
sample at channel 0, index 0 becomes zero although it held 7. -/
theorem readBlock_total_miss_zeros_witness :
    (getNextAudioBlock 2 ⟨4096, 0, 0, 0, false, true, 44100⟩
        (fun _ _ => 3) 2 (fun _ _ => 7) 0 4).1 0 0 = 0 :=
  readBlock_total_miss_zeros 2 ⟨4096, 0, 0, 0, false, true, 44100⟩
    (fun _ _ => 3) (fun _ _ => 7) 2 0 4 (by decide) (by decide)
    (fun p h => by
      have h1 : (0 : Int) ≤ p := h.2.2.1
      have h2 : p < (0 : Int) := h.2.2.2
      omega)
    0 0 (by decide) (by decide) (by decide) (by decide)

/-! ## Claim C6 -/

lemma jmax_zero_nonneg (x : Int) : 0 ≤ jmax 0 x := by
  unfold jmax; split <;> omega

/-- C6: when newStart = max(0, nextPlayPos) falls outside the current
valid range [validStart, validEnd) and the looping flag is unchanged,
the refill invocation first commits an empty valid range (cold/seek
discard) and selects the read section
[newStart, min(newStart + capacity - 4, newStart + 2048)); after the
read the valid range regrows to exactly that window starting from
newStart, and the invocation reports that it did work. -/
theorem refill_cold_seek_discard_and_regrow (b : Bool) (s : State)
    (hflag : s.wasSourceLooping = b) (hcap : 1024 ≤ s.capacity)
    (hout : jmax 0 s.nextPlayPos < s.bufferValidStart
      ∨ s.bufferValidEnd ≤ jmax 0 s.nextPlayPos) :
    (readNextBufferChunkLocked b s).locked.bufferValidStart = 0
    ∧ (readNextBufferChunkLocked b s).locked.bufferValidEnd = 0
    ∧ (readNextBufferChunkLocked b s).sectionToReadStart
      = jmax 0 s.nextPlayPos
    ∧ (readNextBufferChunkLocked b s).sectionToReadEnd
      = jmin (jmax 0 s.nextPlayPos + s.capacity - 4)
          (jmax 0 s.nextPlayPos + 2048)
    ∧ (readNextBufferChunkState b s).1.bufferValidStart
      = jmax 0 s.nextPlayPos
    ∧ (readNextBufferChunkState b s).1.bufferValidEnd
      = jmin (jmax 0 s.nextPlayPos + s.capacity - 4)
          (jmax 0 s.nextPlayPos + 2048)
    ∧ (readNextBufferChunkState b s).2 = true := by
  have hs0 : (if s.wasSourceLooping ≠ b then
      { s with wasSourceLooping := b,
               bufferValidStart := 0, bufferValidEnd := 0 }
    else s) = s := if_neg (by simp [hflag])
  have h1 : (readNextBufferChunkLocked b s).locked.bufferValidStart
      = 0 := by
    simp only [readNextBufferChunkLocked]
    rw [hs0, if_pos hout]
  have h2 : (readNextBufferChunkLocked b s).locked.bufferValidEnd
      = 0 := by
    simp only [readNextBufferChunkLocked]
    rw [hs0, if_pos hout]
  have h3 : (readNextBufferChunkLocked b s).sectionToReadStart
      = jmax 0 s.nextPlayPos := by
    simp only [readNextBufferChunkLocked]
    rw [hs0, if_pos hout]
  have h4 : (readNextBufferChunkLocked b s).sectionToReadEnd
      = jmin (jmax 0 s.nextPlayPos + s.capacity - 4)
          (jmax 0 s.nextPlayPos + 2048) := by
    simp only [readNextBufferChunkLocked]
    rw [hs0, if_pos hout]
  have h5 : (readNextBufferChunkLocked b s).newBVS
      = jmax 0 s.nextPlayPos := by
    simp only [readNextBufferChunkLocked]
    rw [hs0, if_pos hout]
  have h6 : (readNextBufferChunkLocked b s).newBVE
      = jmin (jmax 0 s.nextPlayPos + s.capacity - 4)
          (jmax 0 s.nextPlayPos + 2048) := by
    simp only [readNextBufferChunkLocked]
    rw [hs0, if_pos hout]
  have hne : jmax 0 s.nextPlayPos
      ≠ jmin (jmax 0 s.nextPlayPos + s.capacity - 4)
          (jmax 0 s.nextPlayPos + 2048) := by
    unfold jmax jmin; split_ifs <;> omega
  refine ⟨h1, h2, h3, h4, ?_, ?_, ?_⟩
  · simp only [readNextBufferChunkState]
    rw [h3, h4, if_neg hne, h5]
  · simp only [readNextBufferChunkState]
    rw [h3, h4, if_neg hne, h6]
  · simp only [readNextBufferChunkState]
    rw [h3, h4, if_neg hne]

/-- C6 witness: cursor 100 with an empty valid range [0, 0) and
capacity 4096: the locked phase discards to [0, 0) and the refill
commits [100, 2148). -/
theorem refill_cold_seek_discard_and_regrow_witness :
    (readNextBufferChunkLocked false
        ⟨4096, 0, 0, 100, false, true, 44100⟩).locked.bufferValidStart
      = 0
    ∧ (readNextBufferChunkLocked false
        ⟨4096, 0, 0, 100, false, true, 44100⟩).locked.bufferValidEnd = 0
    ∧ (readNextBufferChunkLocked false
        ⟨4096, 0, 0, 100, false, true, 44100⟩).sectionToReadStart
      = jmax 0 100
    ∧ (readNextBufferChunkLocked false
        ⟨4096, 0, 0, 100, false, true, 44100⟩).sectionToReadEnd
      = jmin (jmax 0 100 + 4096 - 4) (jmax 0 100 + 2048)
    ∧ (readNextBufferChunkState false
        ⟨4096, 0, 0, 100, false, true, 44100⟩).1.bufferValidStart
      = jmax 0 100
    ∧ (readNextBufferChunkState false
        ⟨4096, 0, 0, 100, false, true, 44100⟩).1.bufferValidEnd
      = jmin (jmax 0 100 + 4096 - 4) (jmax 0 100 + 2048)
    ∧ (readNextBufferChunkState false
        ⟨4096, 0, 0, 100, false, true, 44100⟩).2 = true :=
  refill_cold_seek_discard_and_regrow false
    ⟨4096, 0, 0, 100, false, true, 44100⟩ rfl (by decide)
    (Or.inr (by decide))

/-! ## Claim C7 -/

/-- C7: when the looping flag reported by the Source differs from the
flag observed at the previous refill invocation, the in-lock phase
discards the whole cache (valid range set to [0, 0)) before computing
the new window, records the new flag, and then necessarily takes the
cold/seek path: the selected section is
[newStart, min(newStart + capacity - 4, newStart + 2048)) with
newStart = max(0, nextPlayPos), reusing no cached data. -/
theorem refill_loop_flag_discard (b : Bool) (s : State)
    (hflag : s.wasSourceLooping ≠ b) :
    (readNextBufferChunkLocked b s).locked.bufferValidStart = 0
    ∧ (readNextBufferChunkLocked b s).locked.bufferValidEnd = 0
    ∧ (readNextBufferChunkLocked b s).locked.wasSourceLooping = b
    ∧ (readNextBufferChunkLocked b s).sectionToReadStart
      = jmax 0 s.nextPlayPos
    ∧ (readNextBufferChunkLocked b s).sectionToReadEnd
      = jmin (jmax 0 s.nextPlayPos + s.capacity - 4)
          (jmax 0 s.nextPlayPos + 2048) := by
  have hs0 : (if s.wasSourceLooping ≠ b then
      { s with wasSourceLooping := b,
               bufferValidStart := 0, bufferValidEnd := 0 }
    else s)
      = { s with wasSourceLooping := b,
                 bufferValidStart := 0, bufferValidEnd := 0 } :=
    if_pos hflag
  have hcold : jmax 0 s.nextPlayPos < (0 : Int)
      ∨ (0 : Int) ≤ jmax 0 s.nextPlayPos :=
    Or.inr (jmax_zero_nonneg s.nextPlayPos)
  refine ⟨?_, ?_, ?_, ?_, ?_⟩ <;>
    · simp only [readNextBufferChunkLocked]
      rw [hs0]
      dsimp only
      rw [if_pos hcold]

/-- C7 witness: looping toggled from false to true with cursor 500 and
a populated valid range [0, 4092): the cache is fully discarded and the
cold path is selected from 500. -/
theorem refill_loop_flag_discard_witness :
    (readNextBufferChunkLocked true
        ⟨4096, 0, 4092, 500, false, true, 44100⟩).locked.bufferValidStart
      = 0
    ∧ (readNextBufferChunkLocked true
        ⟨4096, 0, 4092, 500, false, true, 44100⟩).locked.bufferValidEnd
      = 0
    ∧ (readNextBufferChunkLocked true
        ⟨4096, 0, 4092, 500, false, true, 44100⟩).locked.wasSourceLooping
      = true
    ∧ (readNextBufferChunkLocked true
        ⟨4096, 0, 4092, 500, false, true, 44100⟩).sectionToReadStart
      = jmax 0 500
    ∧ (readNextBufferChunkLocked true
        ⟨4096, 0, 4092, 500, false, true, 44100⟩).sectionToReadEnd
      = jmin (jmax 0 500 + 4096 - 4) (jmax 0 500 + 2048) :=
  refill_loop_flag_discard true ⟨4096, 0, 4092, 500, false, true, 44100⟩
    (by decide)

/-! ## Claim C3 -/

/-- The range invariant together with the configuration facts needed to
preserve it: the valid range is well formed and fits in the capacity,
and a prepared object has the capacity floor enforced by the
constructor (jmax 1024 bufferSizeSamples) and prepareToPlay. -/
def RangeInv (s : State) : Prop :=
  0 ≤ s.bufferValidEnd - s.bufferValidStart
  ∧ s.bufferValidEnd - s.bufferValidStart ≤ s.capacity
  ∧ (s.isPrepared = true → 1024 ≤ s.capacity)

lemma rangeInv_initial : RangeInv initialState := by
  refine ⟨by decide, by decide, ?_⟩
  intro h
  simp [initialState] at h

lemma rangeInv_prepare (n : Int) (hn : 1024 ≤ n) (s : State)
    (hs : RangeInv s) (samplesPerBlockExpected newSampleRate : Int) :
    RangeInv (prepareToPlay n s samplesPerBlockExpected newSampleRate) := by
  obtain ⟨i1, i2, i3⟩ := hs
  simp only [prepareToPlay]
  split_ifs with h
  · refine ⟨by dsimp only; omega, ?_, ?_⟩
    · dsimp only
      unfold jmax
      split <;> omega
    · intro h2
      dsimp only
      unfold jmax
      split <;> omega
  · exact ⟨i1, i2, i3⟩

lemma jmax_spec (x y : Int) :
    (jmax x y = x ∨ jmax x y = y) ∧ x ≤ jmax x y ∧ y ≤ jmax x y := by
  unfold jmax; split_ifs <;> omega

lemma jmin_spec (x y : Int) :
    (jmin x y = x ∨ jmin x y = y) ∧ jmin x y ≤ x ∧ jmin x y ≤ y := by
  unfold jmin; split_ifs <;> omega

lemma rangeInv_locked (b : Bool) (s : State) (hs : RangeInv s)
    (hp : s.isPrepared = true) :
    RangeInv (readNextBufferChunkLocked b s).locked := by
  obtain ⟨i1, i2, i3⟩ := hs
  have hcap : 1024 ≤ s.capacity := i3 hp
  by_cases hfl : s.wasSourceLooping ≠ b
  · have hs0 : (if s.wasSourceLooping ≠ b then
        { s with wasSourceLooping := b,
                 bufferValidStart := 0, bufferValidEnd := 0 }
      else s)
        = { s with wasSourceLooping := b,
                   bufferValidStart := 0, bufferValidEnd := 0 } :=
      if_pos hfl
    have hcold : jmax 0 s.nextPlayPos < (0 : Int)
        ∨ (0 : Int) ≤ jmax 0 s.nextPlayPos :=
      Or.inr (jmax_zero_nonneg s.nextPlayPos)
    simp only [readNextBufferChunkLocked]
    rw [hs0]
    dsimp only
    rw [if_pos hcold]
    exact ⟨by dsimp only; omega, by dsimp only; omega,
      by dsimp only; exact fun _ => hcap⟩
  · have hs0 : (if s.wasSourceLooping ≠ b then
        { s with wasSourceLooping := b,
                 bufferValidStart := 0, bufferValidEnd := 0 }
      else s) = s := if_neg hfl
    simp only [readNextBufferChunkLocked]
    rw [hs0]
    by_cases hc : jmax 0 s.nextPlayPos < s.bufferValidStart
        ∨ s.bufferValidEnd ≤ jmax 0 s.nextPlayPos
    · rw [if_pos hc]
      exact ⟨by dsimp only; omega, by dsimp only; omega,
        by dsimp only; exact fun _ => hcap⟩
    · rw [if_neg hc]
      push_neg at hc
      by_cases hd : 512 < |toInt32 (jmax 0 s.nextPlayPos
            - s.bufferValidStart)|
          ∨ 512 < |toInt32 (jmax 0 s.nextPlayPos + s.capacity - 4
            - s.bufferValidEnd)|
      · rw [if_pos hd]
        have hj1 := jmin_spec s.bufferValidEnd
          (jmin (jmax 0 s.nextPlayPos + s.capacity - 4)
            (s.bufferValidEnd + 2048))
        have hj2 := jmin_spec (jmax 0 s.nextPlayPos + s.capacity - 4)
          (s.bufferValidEnd + 2048)
        refine ⟨?_, ?_, ?_⟩ <;> dsimp only
        · omega
        · omega
        · exact fun _ => hcap
      · rw [if_neg hd]
        exact ⟨i1, i2, i3⟩

lemma locked_capacity (b : Bool) (s : State) :
    (readNextBufferChunkLocked b s).locked.capacity = s.capacity := by
  simp only [readNextBufferChunkLocked]
  split_ifs <;> rfl

lemma locked_isPrepared (b : Bool) (s : State) :
    (readNextBufferChunkLocked b s).locked.isPrepared = s.isPrepared := by
  simp only [readNextBufferChunkLocked]
  split_ifs <;> rfl

lemma newBV_bounds (b : Bool) (s : State) (hs : RangeInv s)
    (hp : s.isPrepared = true)
    (hsec : (readNextBufferChunkLocked b s).sectionToReadStart
      ≠ (readNextBufferChunkLocked b s).sectionToReadEnd) :
    0 ≤ (readNextBufferChunkLocked b s).newBVE
      - (readNextBufferChunkLocked b s).newBVS
    ∧ (readNextBufferChunkLocked b s).newBVE
      - (readNextBufferChunkLocked b s).newBVS ≤ s.capacity := by
  obtain ⟨i1, i2, i3⟩ := hs
  have hcap : 1024 ≤ s.capacity := i3 hp
  by_cases hfl : s.wasSourceLooping ≠ b
  · have hs0 : (if s.wasSourceLooping ≠ b then
        { s with wasSourceLooping := b,
                 bufferValidStart := 0, bufferValidEnd := 0 }
      else s)
        = { s with wasSourceLooping := b,
                   bufferValidStart := 0, bufferValidEnd := 0 } :=
      if_pos hfl
    have hcold : jmax 0 s.nextPlayPos < (0 : Int)
        ∨ (0 : Int) ≤ jmax 0 s.nextPlayPos :=
      Or.inr (jmax_zero_nonneg s.nextPlayPos)
    simp only [readNextBufferChunkLocked]
    rw [hs0]
    dsimp only
    rw [if_pos hcold]
    dsimp only
    have hj := jmin_spec (jmax 0 s.nextPlayPos + s.capacity - 4)
      (jmax 0 s.nextPlayPos + 2048)
    omega
  · have hs0 : (if s.wasSourceLooping ≠ b then
        { s with wasSourceLooping := b,
                 bufferValidStart := 0, bufferValidEnd := 0 }
      else s) = s := if_neg hfl
    simp only [readNextBufferChunkLocked] at hsec ⊢
    rw [hs0] at hsec ⊢
    by_cases hc : jmax 0 s.nextPlayPos < s.bufferValidStart
        ∨ s.bufferValidEnd ≤ jmax 0 s.nextPlayPos
    · rw [if_pos hc] at hsec ⊢
      dsimp only
      have hj := jmin_spec (jmax 0 s.nextPlayPos + s.capacity - 4)
        (jmax 0 s.nextPlayPos + 2048)
      omega
    · rw [if_neg hc] at hsec ⊢
      push_neg at hc
      by_cases hd : 512 < |toInt32 (jmax 0 s.nextPlayPos
            - s.bufferValidStart)|
          ∨ 512 < |toInt32 (jmax 0 s.nextPlayPos + s.capacity - 4
            - s.bufferValidEnd)|
      · rw [if_pos hd] at hsec ⊢
        dsimp only
        have hj := jmin_spec (jmax 0 s.nextPlayPos + s.capacity - 4)
          (s.bufferValidEnd + 2048)
        omega
      · rw [if_neg hd] at hsec
        dsimp only at hsec
        exact absurd rfl hsec

lemma rangeInv_refill (b : Bool) (s : State) (hs : RangeInv s)
    (hp : s.isPrepared = true) :
    RangeInv (readNextBufferChunkState b s).1 := by
  by_cases hsec : (readNextBufferChunkLocked b s).sectionToReadStart
      = (readNextBufferChunkLocked b s).sectionToReadEnd
  · have hstep : (readNextBufferChunkState b s).1
        = (readNextBufferChunkLocked b s).locked := by
      simp only [readNextBufferChunkState]
      rw [if_pos hsec]
    rw [hstep]
    exact rangeInv_locked b s hs hp
  · have hstep : (readNextBufferChunkState b s).1
        = { (readNextBufferChunkLocked b s).locked with
            bufferValidStart := (readNextBufferChunkLocked b s).newBVS,
            bufferValidEnd := (readNextBufferChunkLocked b s).newBVE } := by
      simp only [readNextBufferChunkState]
      rw [if_neg hsec]
    rw [hstep]
    obtain ⟨hb1, hb2⟩ := newBV_bounds b s hs hp hsec
    have hcap : 1024 ≤ s.capacity := hs.2.2 hp
    refine ⟨?_, ?_, ?_⟩
    · dsimp only
      omega
    · dsimp only
      rw [locked_capacity]
      omega
    · dsimp only
      rw [locked_isPrepared, locked_capacity]
      intro h2
      rw [h2] at hp
      exact hcap

lemma rangeInv_reachable (bufferSizeSamples : Int) (s : State)
    (h : Reachable bufferSizeSamples s) : RangeInv s := by
  induction h with
  | init => exact rangeInv_initial
  | prepare s spbe sr hr ih =>
      exact rangeInv_prepare _ (by unfold jmax; split <;> omega) s ih
        spbe sr
  | seek s p hr ih => exact ih
  | readBlock s nc buf dnc dest ss n hr ih =>
      rw [getNextAudioBlock_snd]
      split_ifs
      · exact ih
      · exact ih
  | refillLocked s b hr hp ih => exact rangeInv_locked b s ih hp
  | refill s b hr hp ih => exact rangeInv_refill b s ih hp

/-- C3: in every reachable state, after every metadata-writing
operation (the reset in prepareToPlay, seeks, read-path calls, the
in-lock updates of readNextBufferChunk, and the final refill commit),
the invariant 0 ≤ bufferValidEnd - bufferValidStart ≤ capacity
holds. -/
theorem validRange_invariant_reachable (bufferSizeSamples : Int)
    (s : State) (h : Reachable bufferSizeSamples s) :
    0 ≤ s.bufferValidEnd - s.bufferValidStart
    ∧ s.bufferValidEnd - s.bufferValidStart ≤ s.capacity :=
  ⟨(rangeInv_reachable bufferSizeSamples s h).1,
   (rangeInv_reachable bufferSizeSamples s h).2.1⟩

/-- C3 witness: the state reached by constructing with
bufferSizeSamples = 0 and preparing with block size 512 satisfies the
invariant. -/
theorem validRange_invariant_reachable_witness :
    0 ≤ (prepareToPlay (jmax 1024 0) initialState 512
          44100).bufferValidEnd
      - (prepareToPlay (jmax 1024 0) initialState 512
          44100).bufferValidStart
    ∧ (prepareToPlay (jmax 1024 0) initialState 512
          44100).bufferValidEnd
      - (prepareToPlay (jmax 1024 0) initialState 512
          44100).bufferValidStart
      ≤ (prepareToPlay (jmax 1024 0) initialState 512 44100).capacity :=
  validRange_invariant_reachable 0 _
    (Reachable.prepare initialState 512 44100 Reachable.init)

/-! ## Claim C4 -/

lemma emod_in_second (x C : Int) (_hC : 0 < C) (h1 : C ≤ x)
    (h2 : x < 2 * C) : x % C = x - C := by
  have h3 : x % C = (x - C) % C := by
    conv_lhs => rw [show x = x - C + C * 1 by ring]
    rw [Int.add_mul_emod_self_left]
  rw [h3, Int.emod_eq_of_lt (by omega) (by omega)]

/-- C4: when the requested absolute range [cursor, cursor+n) is fully
contained in the valid range, every destination sample on every cache
channel receives exactly the cached Source sample for its absolute
position and nothing is zero-filled.  The cache-coherence hypothesis
states what the refill path establishes: every valid absolute position
p is stored at physical index p mod capacity. -/
theorem readBlock_full_hit_exact (numberOfChannels : Int) (s : State)
    (buf srcData dest : Int → Int → Int) (startSample n : Int)
    (hcap : 0 < s.capacity)
    (hbvs : 0 ≤ s.bufferValidStart)
    (hinv : s.bufferValidEnd - s.bufferValidStart ≤ s.capacity)
    (hlo : s.bufferValidStart ≤ s.nextPlayPos)
    (hhi : s.nextPlayPos + n ≤ s.bufferValidEnd)
    (hn : 0 ≤ n) (hn32 : n < 2147483648)
    (hcoh : ∀ c p, s.bufferValidStart ≤ p → p < s.bufferValidEnd →
      buf c (p.tmod s.capacity) = srcData c p) :
    ∀ c i, 0 ≤ c → c < numberOfChannels → startSample ≤ i →
      i < startSample + n →
      (getNextAudioBlock numberOfChannels s buf numberOfChannels dest
          startSample n).1 c i
        = srcData c (s.nextPlayPos + (i - startSample)) := by
  intro c i hc1 hc2 hi1 hi2
  have hn1 : 0 < n := by omega
  have hncap : n ≤ s.capacity := by omega
  have hA : jlimit s.bufferValidStart s.bufferValidEnd s.nextPlayPos
      = s.nextPlayPos := by
    unfold jlimit; split_ifs <;> omega
  have hB : jlimit s.bufferValidStart s.bufferValidEnd
      (s.nextPlayPos + n) = s.nextPlayPos + n := by
    unfold jlimit; split_ifs <;> omega
  have hr1 : (getValidBufferRange s n).1 = 0 := by
    simp only [getValidBufferRange]
    rw [hA]
    have := toInt32_eq_self
      (x := s.nextPlayPos - s.nextPlayPos) (by omega) (by omega)
    omega
  have hr2 : (getValidBufferRange s n).2 = n := by
    simp only [getValidBufferRange]
    rw [hB]
    have := toInt32_eq_self
      (x := s.nextPlayPos + n - s.nextPlayPos) (by omega) (by omega)
    omega
  have hne : ¬ ((getValidBufferRange s n).1
      = (getValidBufferRange s n).2) := by
    rw [hr1, hr2]; omega
  have hbis : s.nextPlayPos.tmod s.capacity
      = s.nextPlayPos % s.capacity :=
    Int.tmod_eq_emod (by omega) hcap.le
  have hpm0 : 0 ≤ s.nextPlayPos % s.capacity :=
    Int.emod_nonneg _ (by omega)
  have hpm1 : s.nextPlayPos % s.capacity < s.capacity :=
    Int.emod_lt_of_pos _ hcap
  have key1 : ∀ k : Int, 0 ≤ k →
      s.nextPlayPos % s.capacity + k < s.capacity →
      (s.nextPlayPos + k).tmod s.capacity
        = s.nextPlayPos % s.capacity + k := by
    intro k hk hlt
    rw [Int.tmod_eq_emod (by omega) hcap.le, ← Int.emod_add_emod,
      Int.emod_eq_of_lt (by omega) hlt]
  have key2 : ∀ k : Int, 0 ≤ k →
      s.capacity ≤ s.nextPlayPos % s.capacity + k →
      s.nextPlayPos % s.capacity + k < 2 * s.capacity →
      (s.nextPlayPos + k).tmod s.capacity
        = s.nextPlayPos % s.capacity + k - s.capacity := by
    intro k hk h1 h2
    rw [Int.tmod_eq_emod (by omega) hcap.le, ← Int.emod_add_emod,
      emod_in_second _ _ hcap h1 h2]
  have hjnc : jmin numberOfChannels numberOfChannels
      = numberOfChannels := by
    unfold jmin; split <;> omega
  simp only [getNextAudioBlock]
  rw [if_neg hne]
  dsimp only
  rw [hr1, hr2]
  rw [if_neg (show ¬ (0 : Int) < 0 by omega),
    if_neg (show ¬ n < n by omega),
    if_pos (show (0 : Int) < n by omega)]
  rw [show startSample + (0 : Int) = startSample by ring,
    show (0 : Int) + s.nextPlayPos = s.nextPlayPos by ring,
    show n - (0 : Int) = n by ring, hjnc]
  rcases wrapSegments_eq s.capacity s.nextPlayPos n hcap (by omega)
      (by omega) hncap with ⟨hcnd, hseg⟩ | ⟨hcnd, hseg⟩
  · rw [hbis] at hcnd hseg
    rw [hseg]
    simp only [copySegments]
    rw [if_pos ⟨hc1, hc2, hi1, hi2⟩]
    rw [← key1 (i - startSample) (by omega) (by omega)]
    rw [hcoh c (s.nextPlayPos + (i - startSample)) (by omega)
      (by omega)]
  · rw [hbis] at hcnd hseg
    rw [hseg]
    simp only [copySegments]
    by_cases hk : i < startSample
        + (s.capacity - s.nextPlayPos % s.capacity)
    · rw [if_neg (by omega), if_pos ⟨hc1, hc2, hi1, hk⟩]
      rw [← key1 (i - startSample) (by omega) (by omega)]
      rw [hcoh c (s.nextPlayPos + (i - startSample)) (by omega)
        (by omega)]
    · rw [if_pos ⟨hc1, hc2, by omega, by omega⟩]
      rw [show (0 : Int)
          + (i - (startSample
            + (s.capacity - s.nextPlayPos % s.capacity)))
          = s.nextPlayPos % s.capacity + (i - startSample)
            - s.capacity by ring]
      rw [← key2 (i - startSample) (by omega) (by omega) (by omega)]
      rw [hcoh c (s.nextPlayPos + (i - startSample)) (by omega)
        (by omega)]

/-- C4 witness: capacity 8, valid range [0, 8), cursor 2, request 4;
with a cache coherent with a constant-7 Source the destination sample
at channel 0, block index 2 is the Source sample 7. -/
theorem readBlock_full_hit_exact_witness :
    (getNextAudioBlock 1 ⟨8, 0, 8, 2, false, true, 44100⟩
        (fun _ _ => 7) 1 (fun _ _ => 0) 0 4).1 0 2 = 7 :=
  readBlock_full_hit_exact 1 ⟨8, 0, 8, 2, false, true, 44100⟩
    (fun _ _ => 7) (fun _ _ => 7) (fun _ _ => 0) 0 4 (by decide)
    (by decide) (by decide) (by decide) (by decide) (by decide)
    (by decide) (fun c p h1 h2 => rfl) 0 2 (by decide) (by decide)
    (by decide) (by decide)
